import Mathlib

/-!
Shallow embedding of the TTL in-memory cache and the NHL fetch orchestrator
of the Sports-Stats-API repository (src/unnamed/part_004 and
src/unnamed/part_007), together with proofs settling the frozen claims.

Modelling conventions:
* JavaScript runtime values are modelled by the inductive type `JSVal`;
  JS truthiness is `truthy`.  `null` is `JSVal.jsNull`.
* `Date.now()` timestamps and `ttlMs` durations are `Nat` (milliseconds).
  The values used by the program stay far below 2^53, where JS number
  arithmetic on integers is exact, so no overflow modelling is needed.
* The JS `Map` backing the cache is modelled as an association list with
  `Map.get` / `Map.set` / `Map.delete` semantics (`mapGet`, `mapSet`,
  `mapDelete`); `mapSet` updates in place like `Map.set`.
* Time-dependent methods take the current time `now` explicitly; methods
  that mutate return the new `MemoryCache` state.
* The upstream `fetch` transport is a parameter
  `net : String → Except String FetchResponse`: `.error` is a transport
  failure (network rejection), `.ok r` a completed HTTP response.
* Orchestrator functions additionally return the number of upstream calls
  performed (0 or 1), so that "triggers exactly one / zero upstream calls"
  can be stated.
-/

/-- A JavaScript runtime value (enough structure for this program). -/
inductive JSVal where
  | jsNull
  | jsBool (b : Bool)
  | jsNum (n : Int)
  | jsStr (s : String)
  | jsArr (elems : List JSVal)
  | jsObj (fields : List (String × JSVal))

/-- JS truthiness, as used by `if (cached) return cached;`. -/
def truthy : JSVal → Bool
  | .jsNull => false
  | .jsBool b => b
  | .jsNum n => n != 0
  | .jsStr s => s != ""
  | .jsArr _ => true
  | .jsObj _ => true

/-- `interface CacheEntry<T> \x7b data: T; expiresAt: number; \x7d`. -/
structure CacheEntry where
  data : JSVal
  expiresAt : Nat

/-- `Map.prototype.get` on the entry map. -/
def mapGet : List (String × CacheEntry) → String → Option CacheEntry
  | [], _ => none
  | (k, e) :: rest, key => if k = key then some e else mapGet rest key

/-- `Map.prototype.set` on the entry map: update in place, else append. -/
def mapSet : List (String × CacheEntry) → String → CacheEntry →
    List (String × CacheEntry)
  | [], key, e => [(key, e)]
  | (k, d) :: rest, key, e =>
    if k = key then (key, e) :: rest else (k, d) :: mapSet rest key e

/-- `Map.prototype.delete` on the entry map. -/
def mapDelete : List (String × CacheEntry) → String → List (String × CacheEntry)
  | [], _ => []
  | (k, e) :: rest, key =>
    if k = key then mapDelete rest key else (k, e) :: mapDelete rest key

/-- `class MemoryCache`: the entry map plus whether the periodic
sweep timer (`cleanupInterval`) is running. -/
structure MemoryCache where
  cache : List (String × CacheEntry)
  cleanupInterval : Bool

/-- The `MemoryCache` constructor: empty map, sweep timer started. -/
def MemoryCache.new : MemoryCache :=
  { cache := [], cleanupInterval := true }

/-- `get<T>(key)`: absent keys yield `null`; an entry with
`Date.now() > entry.expiresAt` is deleted and yields `null`; otherwise the
stored data is returned.  Returns the result together with the possibly
updated cache state. -/
def MemoryCache.get (c : MemoryCache) (now : Nat) (key : String) :
    JSVal × MemoryCache :=
  match mapGet c.cache key with
  | none => (.jsNull, c)
  | some entry =>
    if now > entry.expiresAt then
      (.jsNull, { c with cache := mapDelete c.cache key })
    else
      (entry.data, c)

/-- `set<T>(key, data, ttlMs)`: stores `expiresAt = Date.now() + ttlMs`. -/
def MemoryCache.set (c : MemoryCache) (now : Nat) (key : String)
    (data : JSVal) (ttlMs : Nat) : MemoryCache :=
  { c with cache := mapSet c.cache key ⟨data, now + ttlMs⟩ }

/-- `delete(key)`: removes the entry if present. -/
def MemoryCache.delete (c : MemoryCache) (key : String) : MemoryCache :=
  { c with cache := mapDelete c.cache key }

/-- `clear()`: removes all entries. -/
def MemoryCache.clear (c : MemoryCache) : MemoryCache :=
  { c with cache := [] }

/-- The private `cleanup()` sweep: removes entries with `now > expiresAt`. -/
def MemoryCache.cleanup (c : MemoryCache) (now : Nat) : MemoryCache :=
  { c with cache := c.cache.filter (fun p => !(now > p.2.expiresAt)) }

/-- `destroy()`: stops the sweep timer if running, then clears all
entries. -/
def MemoryCache.destroy (c : MemoryCache) : MemoryCache :=
  let c1 := if c.cleanupInterval then { c with cleanupInterval := false } else c
  { c1 with cache := [] }

/-- The `CACHE_TTL` constant table (milliseconds). -/
structure CacheTTLTable where
  LIVE_SCORES : Nat
  SCHEDULE : Nat
  STANDINGS : Nat
  PLAYER_STATS : Nat
  GAME_DETAILS : Nat

/-- `export const CACHE_TTL = \x7b ... \x7d`. -/
def CACHE_TTL : CacheTTLTable :=
  { LIVE_SCORES := 30000
    SCHEDULE := 5 * 60000
    STANDINGS := 5 * 60000
    PLAYER_STATS := 10 * 60000
    GAME_DETAILS := 30000 }

/-! ## The fetch orchestrator (src/unnamed/part_007, services/nhl) -/

/-- The result of an awaited `fetch(url)` that did not reject. -/
structure FetchResponse where
  ok : Bool
  status : Nat
  statusText : String
  body : JSVal

def NHL_API_BASE : String := "https://api-web.nhle.com/v1"

/-- `fetchNHL<T>(endpoint)`: builds the URL, performs the fetch through the
transport `net`, throws `NHL API error: status statusText` on a
non-success response, otherwise yields the JSON body. -/
def fetchNHL (net : String → Except String FetchResponse)
    (endpoint : String) : Except String JSVal :=
  match net (NHL_API_BASE ++ endpoint) with
  | .error e => .error e
  | .ok response =>
    if !response.ok then
      .error ("NHL API error: " ++ toString response.status ++ " "
        ++ response.statusText)
    else
      .ok response.body

/-- `getLiveScores()`.  The source computes `today` from the wall clock;
here it is the explicit argument `today`.  Returns the result, the new
cache state, and the number of upstream calls made. -/
def getLiveScores (net : String → Except String FetchResponse)
    (c : MemoryCache) (now : Nat) (today : String) :
    Except String JSVal × MemoryCache × Nat :=
  let cacheKey := "live-scores:" ++ today
  let r := c.get now cacheKey
  if truthy r.1 then (.ok r.1, r.2, 0)
  else
    match fetchNHL net ("/schedule/" ++ today) with
    | .error e => (.error e, r.2, 1)
    | .ok data =>
      (.ok data, r.2.set now cacheKey data CACHE_TTL.LIVE_SCORES, 1)

/-- `getSchedule(date)`. -/
def getSchedule (net : String → Except String FetchResponse)
    (c : MemoryCache) (now : Nat) (date : String) :
    Except String JSVal × MemoryCache × Nat :=
  let cacheKey := "schedule:" ++ date
  let r := c.get now cacheKey
  if truthy r.1 then (.ok r.1, r.2, 0)
  else
    match fetchNHL net ("/schedule/" ++ date) with
    | .error e => (.error e, r.2, 1)
    | .ok data =>
      (.ok data, r.2.set now cacheKey data CACHE_TTL.SCHEDULE, 1)

/-- `getGameById(gameId)`. -/
def getGameById (net : String → Except String FetchResponse)
    (c : MemoryCache) (now : Nat) (gameId : String) :
    Except String JSVal × MemoryCache × Nat :=
  let cacheKey := "game:" ++ gameId
  let r := c.get now cacheKey
  if truthy r.1 then (.ok r.1, r.2, 0)
  else
    match fetchNHL net ("/gamecenter/" ++ gameId ++ "/landing") with
    | .error e => (.error e, r.2, 1)
    | .ok data =>
      (.ok data, r.2.set now cacheKey data CACHE_TTL.GAME_DETAILS, 1)

/-- `getStandings()`.  The source computes `currentDate` from the wall
clock; here it is the explicit argument `currentDate`. -/
def getStandings (net : String → Except String FetchResponse)
    (c : MemoryCache) (now : Nat) (currentDate : String) :
    Except String JSVal × MemoryCache × Nat :=
  let cacheKey := "standings:" ++ currentDate
  let r := c.get now cacheKey
  if truthy r.1 then (.ok r.1, r.2, 0)
  else
    match fetchNHL net ("/standings/" ++ currentDate) with
    | .error e => (.error e, r.2, 1)
    | .ok data =>
      (.ok data, r.2.set now cacheKey data CACHE_TTL.STANDINGS, 1)

/-- `getPlayerStats(playerId)`. -/
def getPlayerStats (net : String → Except String FetchResponse)
    (c : MemoryCache) (now : Nat) (playerId : String) :
    Except String JSVal × MemoryCache × Nat :=
  let cacheKey := "player:" ++ playerId
  let r := c.get now cacheKey
  if truthy r.1 then (.ok r.1, r.2, 0)
  else
    match fetchNHL net ("/player/" ++ playerId ++ "/landing") with
    | .error e => (.error e, r.2, 1)
    | .ok data =>
      (.ok data, r.2.set now cacheKey data CACHE_TTL.PLAYER_STATS, 1)

/-- JS `s.toLowerCase()` (ASCII, as used on team abbreviations). -/
def toLowerCase (s : String) : String := String.mk (s.data.map Char.toLower)

/-- JS property access `v.name` on an object, `undefined`/`null` elsewhere
modelled as `none`. -/
def getField : JSVal → String → Option JSVal
  | .jsObj fields, name => fields.lookup name
  | _, _ => none

/-- The predicate of the `find` in `getTeamStats`:
`t.teamAbbrev.default.toLowerCase() === abbrev.toLowerCase()` (the
source parameter `abbrev` is a Lean keyword, renamed `abbr`).  Elements on
which the JS property chain is not a string (where JS would throw) are
outside the well-formedness hypotheses of the theorems; the model makes
the predicate false there. -/
def matchesAbbrev (abbr : String) (t : JSVal) : Bool :=
  match (getField t "teamAbbrev").bind (fun a => getField a "default") with
  | some (.jsStr s) => toLowerCase s == toLowerCase abbr
  | _ => false

/-- `getTeamStats(abbrev)`: fetch standings through the cache, linear-scan
`standings.standings` case-insensitively, `team || null`.  A standings
document without an array `standings` field would make the JS scan throw;
modelled as an error result. -/
def getTeamStats (net : String → Except String FetchResponse)
    (c : MemoryCache) (now : Nat) (currentDate : String) (abbr : String) :
    Except String JSVal × MemoryCache :=
  match getStandings net c now currentDate with
  | (.error e, c1, _) => (.error e, c1)
  | (.ok standings, c1, _) =>
    match getField standings "standings" with
    | some (.jsArr teams) =>
      match teams.find? (matchesAbbrev abbr) with
      | some team => (.ok team, c1)
      | none => (.ok .jsNull, c1)
    | _ => (.error "TypeError", c1)

/-! ## Map lemmas -/

theorem mapGet_mapSet_self (m : List (String × CacheEntry)) (k : String)
    (e : CacheEntry) : mapGet (mapSet m k e) k = some e := by
  induction m with
  | nil => simp [mapSet, mapGet]
  | cons p rest ih =>
    obtain ⟨k1, e1⟩ := p
    by_cases h : k1 = k
    · simp [mapSet, mapGet, h]
    · simp [mapSet, mapGet, h, ih]

theorem mapGet_mapSet_ne (m : List (String × CacheEntry)) (k k2 : String)
    (e : CacheEntry) (h : k ≠ k2) :
    mapGet (mapSet m k e) k2 = mapGet m k2 := by
  induction m with
  | nil => simp [mapSet, mapGet, h]
  | cons p rest ih =>
    obtain ⟨k1, e1⟩ := p
    by_cases h1 : k1 = k
    · subst h1
      simp [mapSet, mapGet, h]
    · simp [mapSet, mapGet, h1, ih]

theorem mapGet_mapDelete_self (m : List (String × CacheEntry)) (k : String) :
    mapGet (mapDelete m k) k = none := by
  induction m with
  | nil => simp [mapDelete, mapGet]
  | cons p rest ih =>
    obtain ⟨k1, e1⟩ := p
    by_cases h : k1 = k
    · simp [mapDelete, h, ih]
    · simp [mapDelete, mapGet, h, ih]

theorem mapDelete_eq_of_none (m : List (String × CacheEntry)) (k : String)
    (h : mapGet m k = none) : mapDelete m k = m := by
  induction m with
  | nil => rfl
  | cons p rest ih =>
    obtain ⟨k1, e1⟩ := p
    by_cases h1 : k1 = k
    · simp [mapGet, h1] at h
    · simp [mapGet, h1] at h
      simp [mapDelete, h1, ih h]

/-! ## Claims -/

/-- C2: an entry is visible to `get` if and only if `now <= expiresAt`;
once `now > expiresAt` the entry is treated as absent (and lazily removed)
even though it may still be physically present in the map; keys with no
entry read as absent. -/
theorem C2_visibility_invariant (c : MemoryCache) (now : Nat) (k : String) :
    (mapGet c.cache k = none → c.get now k = (JSVal.jsNull, c)) ∧
    (∀ e, mapGet c.cache k = some e →
      (now ≤ e.expiresAt → c.get now k = (e.data, c)) ∧
      (e.expiresAt < now → c.get now k = (JSVal.jsNull, c.delete k))) := by
  refine ⟨fun h => ?_, fun e h => ⟨fun hle => ?_, fun hlt => ?_⟩⟩
  · simp [MemoryCache.get, h]
  · simp [MemoryCache.get, h, Nat.not_lt.mpr hle]
  · simp [MemoryCache.get, MemoryCache.delete, h, hlt]

/-- C2 witness: a concrete cache with one entry expiring at 100, read at
times 100 (visible) and 101 (absent), plus an absent key. -/
theorem C2_visibility_invariant_witness :
    (MemoryCache.mk [("k", ⟨JSVal.jsNum 7, 100⟩)] true).get 100 "k"
      = (JSVal.jsNum 7, MemoryCache.mk [("k", ⟨JSVal.jsNum 7, 100⟩)] true) ∧
    (MemoryCache.mk [("k", ⟨JSVal.jsNum 7, 100⟩)] true).get 101 "k"
      = (JSVal.jsNull,
         (MemoryCache.mk [("k", ⟨JSVal.jsNum 7, 100⟩)] true).delete "k") ∧
    (MemoryCache.mk [("k", ⟨JSVal.jsNum 7, 100⟩)] true).get 100 "x"
      = (JSVal.jsNull, MemoryCache.mk [("k", ⟨JSVal.jsNum 7, 100⟩)] true) :=
  ⟨((C2_visibility_invariant (MemoryCache.mk [("k", ⟨JSVal.jsNum 7, 100⟩)] true)
        100 "k").2 ⟨JSVal.jsNum 7, 100⟩ (by simp [mapGet])).1 (by decide),
   ((C2_visibility_invariant (MemoryCache.mk [("k", ⟨JSVal.jsNum 7, 100⟩)] true)
        101 "k").2 ⟨JSVal.jsNum 7, 100⟩ (by simp [mapGet])).2 (by decide),
   (C2_visibility_invariant (MemoryCache.mk [("k", ⟨JSVal.jsNum 7, 100⟩)] true)
        100 "x").1 (by simp [mapGet])⟩

/-- C1 counterexample: `set("k", 1, 0)` at time 5 followed by `get("k")`
at the same time 5 — elapsed time 0 is `>= ttl = 0`, so the claim demands
absence, yet the code returns the stored value (expiry fires only when
`now > expiresAt`, not at equality). -/
theorem C1_counterexample :
    ((MemoryCache.new.set 5 "k" (JSVal.jsNum 1) 0).get 5 "k").1
      = JSVal.jsNum 1 ∧
    JSVal.jsNum 1 ≠ JSVal.jsNull := by
  refine ⟨rfl, fun h => ?_⟩
  exact JSVal.noConfusion h

/-- C1 (amended): after `set(k, v, t)` at time `s`, `get(k)` returns `v`
at any elapsed time `d ≤ t` (including `d = t` exactly) and returns absent
at any elapsed time `d > t`; a ttl of 0 leaves the entry visible to reads
at the set timestamp itself and expired for all strictly later reads. -/
theorem C1_expiry_amended (c : MemoryCache) (k : String) (v : JSVal)
    (t s d : Nat) :
    (d ≤ t → ((c.set s k v t).get (s + d) k).1 = v) ∧
    (t < d → ((c.set s k v t).get (s + d) k).1 = JSVal.jsNull) := by
  have hm : mapGet (c.set s k v t).cache k = some ⟨v, s + t⟩ :=
    mapGet_mapSet_self c.cache k ⟨v, s + t⟩
  constructor
  · intro h
    have : ¬ (s + d > s + t) := by omega
    simp [MemoryCache.get, hm, this]
  · intro h
    have : s + d > s + t := by omega
    simp [MemoryCache.get, hm, this]

/-- C1 amended witness: ttl 3, read at elapsed times 3 (visible) and 4
(absent). -/
theorem C1_expiry_amended_witness :
    ((MemoryCache.new.set 10 "k" (JSVal.jsStr "v") 3).get (10 + 3) "k").1
      = JSVal.jsStr "v" ∧
    ((MemoryCache.new.set 10 "k" (JSVal.jsStr "v") 3).get (10 + 4) "k").1
      = JSVal.jsNull :=
  ⟨(C1_expiry_amended MemoryCache.new "k" (JSVal.jsStr "v") 3 10 3).1
      (by decide),
   (C1_expiry_amended MemoryCache.new "k" (JSVal.jsStr "v") 3 10 4).2
      (by decide)⟩

/-- C7: overwrite is last-write-wins — after `set(k, v1, t1)` then
`set(k, v2, t2)` (at time `n2`), the map holds exactly `(v2, n2 + t2)`
under `k`; `get(k)` returns `v2` while `t2` has not elapsed and absent
after; every `get(k)` result is `v2` or the absent marker, so `v1` is
never observable again. -/
theorem C7_overwrite_last_write_wins (c : MemoryCache) (k : String)
    (v1 v2 : JSVal) (t1 t2 n1 n2 : Nat) :
    mapGet ((c.set n1 k v1 t1).set n2 k v2 t2).cache k
      = some ⟨v2, n2 + t2⟩ ∧
    (∀ d, d ≤ t2 →
      (((c.set n1 k v1 t1).set n2 k v2 t2).get (n2 + d) k).1 = v2) ∧
    (∀ d, t2 < d →
      (((c.set n1 k v1 t1).set n2 k v2 t2).get (n2 + d) k).1
        = JSVal.jsNull) ∧
    (∀ now, (((c.set n1 k v1 t1).set n2 k v2 t2).get now k).1 = v2 ∨
      (((c.set n1 k v1 t1).set n2 k v2 t2).get now k).1 = JSVal.jsNull) := by
  have hm : mapGet ((c.set n1 k v1 t1).set n2 k v2 t2).cache k
      = some ⟨v2, n2 + t2⟩ :=
    mapGet_mapSet_self (c.set n1 k v1 t1).cache k ⟨v2, n2 + t2⟩
  refine ⟨hm, fun d hd => ?_, fun d hd => ?_, fun now => ?_⟩
  · have : ¬ (n2 + d > n2 + t2) := by omega
    simp [MemoryCache.get, hm, this]
  · have : n2 + d > n2 + t2 := by omega
    simp [MemoryCache.get, hm, this]
  · by_cases h : now > n2 + t2
    · right; simp [MemoryCache.get, hm, h]
    · left; simp [MemoryCache.get, hm, h]

/-- C7 witness: overwrite `(1, ttl 50)` with `(2, ttl 7)` at time 100;
reads at elapsed 7 and 8, and the absence of `v1 = 1` at time 0. -/
theorem C7_overwrite_last_write_wins_witness :
    mapGet (((MemoryCache.new.set 90 "k" (JSVal.jsNum 1) 50).set 100 "k"
        (JSVal.jsNum 2) 7)).cache "k" = some ⟨JSVal.jsNum 2, 107⟩ ∧
    (((MemoryCache.new.set 90 "k" (JSVal.jsNum 1) 50).set 100 "k"
        (JSVal.jsNum 2) 7).get (100 + 7) "k").1 = JSVal.jsNum 2 ∧
    (((MemoryCache.new.set 90 "k" (JSVal.jsNum 1) 50).set 100 "k"
        (JSVal.jsNum 2) 7).get (100 + 8) "k").1 = JSVal.jsNull :=
  ⟨(C7_overwrite_last_write_wins MemoryCache.new "k" (JSVal.jsNum 1)
      (JSVal.jsNum 2) 50 7 90 100).1,
   (C7_overwrite_last_write_wins MemoryCache.new "k" (JSVal.jsNum 1)
      (JSVal.jsNum 2) 50 7 90 100).2.1 7 (by decide),
   (C7_overwrite_last_write_wins MemoryCache.new "k" (JSVal.jsNum 1)
      (JSVal.jsNum 2) 50 7 90 100).2.2.1 8 (by decide)⟩

/-- C8: after `delete(k)`, `get(k)` is absent immediately regardless of
remaining TTL; `delete` of an absent key leaves the cache unchanged (and
raises no error — it is a total function); after `clear()`, `get` is
absent for every key. -/
theorem C8_delete_clear (c : MemoryCache) (now : Nat) (k : String) :
    ((c.delete k).get now k).1 = JSVal.jsNull ∧
    (mapGet c.cache k = none → c.delete k = c) ∧
    (∀ k2, ((c.clear).get now k2).1 = JSVal.jsNull) := by
  refine ⟨?_, fun h => ?_, fun k2 => ?_⟩
  · simp [MemoryCache.get, MemoryCache.delete, mapGet_mapDelete_self]
  · simp [MemoryCache.delete, mapDelete_eq_of_none c.cache k h]
  · simp [MemoryCache.get, MemoryCache.clear, mapGet]

/-- C8 witness: delete a live entry (ttl far in the future) and read it
back; delete a key absent from a concrete cache. -/
theorem C8_delete_clear_witness :
    (((MemoryCache.new.set 0 "k" (JSVal.jsNum 3) 999999).delete "k").get
        1 "k").1 = JSVal.jsNull ∧
    (MemoryCache.new.set 0 "k" (JSVal.jsNum 3) 999999).delete "x"
      = MemoryCache.new.set 0 "k" (JSVal.jsNum 3) 999999 ∧
    (((MemoryCache.new.set 0 "k" (JSVal.jsNum 3) 999999).clear).get
        1 "k").1 = JSVal.jsNull :=
  ⟨(C8_delete_clear (MemoryCache.new.set 0 "k" (JSVal.jsNum 3) 999999)
      1 "k").1,
   (C8_delete_clear (MemoryCache.new.set 0 "k" (JSVal.jsNum 3) 999999)
      1 "x").2.1 (by simp [MemoryCache.set, MemoryCache.new, mapSet, mapGet]),
   (C8_delete_clear (MemoryCache.new.set 0 "k" (JSVal.jsNum 3) 999999)
      1 "k").2.2 "k"⟩

/-- C9: `destroy()` stops the sweep timer and removes all entries, and is
idempotent — a second `destroy()` (a total function, so it cannot fail)
leaves the same empty, timer-stopped state. -/
theorem C9_destroy_idempotent (c : MemoryCache) :
    (c.destroy).cleanupInterval = false ∧
    (∀ k, mapGet (c.destroy).cache k = none) ∧
    c.destroy.destroy = c.destroy := by
  by_cases h : c.cleanupInterval <;>
    simp [MemoryCache.destroy, h, mapGet]

/-- C3: read-through on miss, instantiated at the two cited categories
(`getSchedule`, `getPlayerStats`).  From an empty cache, one call makes
exactly one upstream call, returns the fetched value and writes it under
the category's key with the category's TTL; a second call within the TTL
makes zero upstream calls, returns the identical value and leaves the
cache unchanged.  Hypotheses: the upstream fetch succeeds and the fetched
JSON document is truthy (every JSON object or array is). -/
theorem C3_read_through_on_miss (net : String → Except String FetchResponse)
    (now now2 : Nat) (date pid : String) (v w : JSVal)
    (hs : fetchNHL net ("/schedule/" ++ date) = .ok v)
    (hv : truthy v = true)
    (hp : fetchNHL net ("/player/" ++ pid ++ "/landing") = .ok w)
    (hw : truthy w = true)
    (hs2 : now2 ≤ now + CACHE_TTL.SCHEDULE)
    (hp2 : now2 ≤ now + CACHE_TTL.PLAYER_STATS) :
    getSchedule net MemoryCache.new now date
      = (.ok v, MemoryCache.new.set now ("schedule:" ++ date) v
          CACHE_TTL.SCHEDULE, 1) ∧
    mapGet (MemoryCache.new.set now ("schedule:" ++ date) v
        CACHE_TTL.SCHEDULE).cache ("schedule:" ++ date)
      = some ⟨v, now + CACHE_TTL.SCHEDULE⟩ ∧
    getSchedule net (MemoryCache.new.set now ("schedule:" ++ date) v
        CACHE_TTL.SCHEDULE) now2 date
      = (.ok v, MemoryCache.new.set now ("schedule:" ++ date) v
          CACHE_TTL.SCHEDULE, 0) ∧
    getPlayerStats net MemoryCache.new now pid
      = (.ok w, MemoryCache.new.set now ("player:" ++ pid) w
          CACHE_TTL.PLAYER_STATS, 1) ∧
    getPlayerStats net (MemoryCache.new.set now ("player:" ++ pid) w
        CACHE_TTL.PLAYER_STATS) now2 pid
      = (.ok w, MemoryCache.new.set now ("player:" ++ pid) w
          CACHE_TTL.PLAYER_STATS, 0) := by
  have hms : mapGet (MemoryCache.new.set now ("schedule:" ++ date) v
      CACHE_TTL.SCHEDULE).cache ("schedule:" ++ date)
      = some ⟨v, now + CACHE_TTL.SCHEDULE⟩ :=
    mapGet_mapSet_self _ _ _
  have hmp : mapGet (MemoryCache.new.set now ("player:" ++ pid) w
      CACHE_TTL.PLAYER_STATS).cache ("player:" ++ pid)
      = some ⟨w, now + CACHE_TTL.PLAYER_STATS⟩ :=
    mapGet_mapSet_self _ _ _
  have hnots : ¬ (now2 > now + CACHE_TTL.SCHEDULE) := by omega
  have hnotp : ¬ (now2 > now + CACHE_TTL.PLAYER_STATS) := by omega
  refine ⟨?_, hms, ?_, ?_, ?_⟩
  · simp [getSchedule, MemoryCache.get, MemoryCache.new, mapGet, truthy, hs]
  · simp [getSchedule, MemoryCache.get, hms, hnots, hv]
  · simp [getPlayerStats, MemoryCache.get, MemoryCache.new, mapGet, truthy,
      hp]
  · simp [getPlayerStats, MemoryCache.get, hmp, hnotp, hw]

/-- A stub JSON document (a truthy object), for witnesses. -/
def stubBody : JSVal := .jsObj [("games", .jsArr [])]

/-- A stub transport whose every request succeeds with `stubBody`. -/
def stubNet : String → Except String FetchResponse :=
  fun _ => .ok ⟨true, 200, "OK", stubBody⟩

/-- C3 witness: concrete first and second `getSchedule` calls against the
stub transport. -/
theorem C3_read_through_on_miss_witness :
    getSchedule stubNet MemoryCache.new 0 "2024-01-15"
      = (.ok stubBody, MemoryCache.new.set 0 ("schedule:" ++ "2024-01-15")
          stubBody CACHE_TTL.SCHEDULE, 1) ∧
    getSchedule stubNet (MemoryCache.new.set 0 ("schedule:" ++ "2024-01-15")
        stubBody CACHE_TTL.SCHEDULE) 10 "2024-01-15"
      = (.ok stubBody, MemoryCache.new.set 0 ("schedule:" ++ "2024-01-15")
          stubBody CACHE_TTL.SCHEDULE, 0) :=
  ⟨(C3_read_through_on_miss stubNet 0 10 "2024-01-15" "8478402" stubBody
      stubBody rfl rfl rfl rfl (by decide) (by decide)).1,
   (C3_read_through_on_miss stubNet 0 10 "2024-01-15" "8478402" stubBody
      stubBody rfl rfl rfl rfl (by decide) (by decide)).2.2.1⟩

/-- C4: when a `getGameById` call misses the cache and the upstream fetch
fails, the failure propagates as the result, exactly one upstream call was
made, the cache state is exactly the post-`get` state (no entry written),
and a key absent before the call is still absent after it. -/
theorem C4_failure_not_cached (net : String → Except String FetchResponse)
    (c : MemoryCache) (now : Nat) (gid e : String)
    (hmiss : truthy (c.get now ("game:" ++ gid)).1 = false)
    (hfail : fetchNHL net ("/gamecenter/" ++ gid ++ "/landing")
      = .error e) :
    getGameById net c now gid
      = (.error e, (c.get now ("game:" ++ gid)).2, 1) ∧
    (mapGet c.cache ("game:" ++ gid) = none →
      mapGet (getGameById net c now gid).2.1.cache ("game:" ++ gid)
        = none) := by
  have h1 : getGameById net c now gid
      = (.error e, (c.get now ("game:" ++ gid)).2, 1) := by
    simp [getGameById, hmiss, hfail]
  refine ⟨h1, fun habs => ?_⟩
  have h2 : c.get now ("game:" ++ gid) = (JSVal.jsNull, c) := by
    simp [MemoryCache.get, habs]
  rw [h1, h2]
  exact habs

/-- A stub transport whose every request completes with HTTP 404. -/
def stubNet404 : String → Except String FetchResponse :=
  fun _ => .ok ⟨false, 404, "Not Found", .jsNull⟩

/-- C4 witness: a 404 on `getGameById("2023020789")` from the empty cache
rejects with an error carrying "404" and leaves no entry under
`"game:2023020789"`. -/
theorem C4_failure_not_cached_witness :
    getGameById stubNet404 MemoryCache.new 0 "2023020789"
      = (.error "NHL API error: 404 Not Found", MemoryCache.new, 1) ∧
    mapGet (getGameById stubNet404 MemoryCache.new 0 "2023020789").2.1.cache
      ("game:" ++ "2023020789") = none :=
  ⟨(C4_failure_not_cached stubNet404 MemoryCache.new 0 "2023020789"
      "NHL API error: 404 Not Found" rfl rfl).1,
   (C4_failure_not_cached stubNet404 MemoryCache.new 0 "2023020789"
      "NHL API error: 404 Not Found" rfl rfl).2 rfl⟩

/-- C5: for the same date `d`, `getLiveScores` and `getSchedule` use the
distinct keys `"live-scores:" ++ d` and `"schedule:" ++ d` with the
distinct TTLs 30 s and 5 min, request the identical upstream endpoint
`"/schedule/" ++ d`, and running one then the other from the empty cache
leaves two distinct entries whose expiry stamps differ accordingly. -/
theorem C5_ttl_differentiation (net : String → Except String FetchResponse)
    (now : Nat) (d : String) (resp : FetchResponse)
    (h1 : net (NHL_API_BASE ++ ("/schedule/" ++ d)) = .ok resp)
    (h2 : resp.ok = true) :
    ("live-scores:" ++ d) ≠ ("schedule:" ++ d) ∧
    CACHE_TTL.LIVE_SCORES = 30000 ∧ CACHE_TTL.SCHEDULE = 5 * 60000 ∧
    CACHE_TTL.LIVE_SCORES ≠ CACHE_TTL.SCHEDULE ∧
    (getLiveScores net MemoryCache.new now d).2.2 = 1 ∧
    (getSchedule net (getLiveScores net MemoryCache.new now d).2.1 now
        d).2.2 = 1 ∧
    mapGet (getSchedule net (getLiveScores net MemoryCache.new now d).2.1
        now d).2.1.cache ("live-scores:" ++ d)
      = some ⟨resp.body, now + CACHE_TTL.LIVE_SCORES⟩ ∧
    mapGet (getSchedule net (getLiveScores net MemoryCache.new now d).2.1
        now d).2.1.cache ("schedule:" ++ d)
      = some ⟨resp.body, now + CACHE_TTL.SCHEDULE⟩ := by
  have hkeys : ("live-scores:" ++ d) ≠ ("schedule:" ++ d) := by
    intro h
    have hl := congrArg String.length h
    simp [String.length_append] at hl
    exact absurd hl (by decide)
  have hfetch : fetchNHL net ("/schedule/" ++ d) = .ok resp.body := by
    simp [fetchNHL, h1, h2]
  have hlive : getLiveScores net MemoryCache.new now d
      = (.ok resp.body, MemoryCache.new.set now ("live-scores:" ++ d)
          resp.body CACHE_TTL.LIVE_SCORES, 1) := by
    simp [getLiveScores, MemoryCache.get, MemoryCache.new, mapGet, truthy,
      hfetch]
  have hmiss2 : mapGet (MemoryCache.new.set now ("live-scores:" ++ d)
      resp.body CACHE_TTL.LIVE_SCORES).cache ("schedule:" ++ d) = none := by
    have := mapGet_mapSet_ne ([] : List (String × CacheEntry))
      ("live-scores:" ++ d) ("schedule:" ++ d)
      ⟨resp.body, now + CACHE_TTL.LIVE_SCORES⟩ hkeys
    simpa [MemoryCache.set, MemoryCache.new, mapGet] using this
  have hsched : getSchedule net (MemoryCache.new.set now
      ("live-scores:" ++ d) resp.body CACHE_TTL.LIVE_SCORES) now d
      = (.ok resp.body, (MemoryCache.new.set now ("live-scores:" ++ d)
          resp.body CACHE_TTL.LIVE_SCORES).set now ("schedule:" ++ d)
          resp.body CACHE_TTL.SCHEDULE, 1) := by
    simp [getSchedule, MemoryCache.get, hmiss2, truthy, hfetch]
  refine ⟨hkeys, rfl, rfl, by decide, ?_, ?_, ?_, ?_⟩
  · rw [hlive]
  · rw [hlive, hsched]
  · rw [hlive, hsched]
    have := mapGet_mapSet_ne (MemoryCache.new.set now ("live-scores:" ++ d)
        resp.body CACHE_TTL.LIVE_SCORES).cache ("schedule:" ++ d)
        ("live-scores:" ++ d) ⟨resp.body, now + CACHE_TTL.SCHEDULE⟩
        (fun h => hkeys h.symm)
    simp only [MemoryCache.set] at this ⊢
    rw [this]
    have h3 := mapGet_mapSet_self ([] : List (String × CacheEntry))
      ("live-scores:" ++ d) ⟨resp.body, now + CACHE_TTL.LIVE_SCORES⟩
    simpa [MemoryCache.new] using h3
  · rw [hlive, hsched]
    simp only [MemoryCache.set]
    exact mapGet_mapSet_self _ _ _

/-- C5 witness: the concrete run for date 2024-01-15 against the stub
transport, starting from the empty cache. -/
theorem C5_ttl_differentiation_witness :
    mapGet (getSchedule stubNet (getLiveScores stubNet MemoryCache.new 0
        "2024-01-15").2.1 0 "2024-01-15").2.1.cache
      ("live-scores:" ++ "2024-01-15") = some ⟨stubBody, 0 + 30000⟩ ∧
    mapGet (getSchedule stubNet (getLiveScores stubNet MemoryCache.new 0
        "2024-01-15").2.1 0 "2024-01-15").2.1.cache
      ("schedule:" ++ "2024-01-15") = some ⟨stubBody, 0 + 5 * 60000⟩ :=
  ⟨(C5_ttl_differentiation stubNet 0 "2024-01-15" ⟨true, 200, "OK", stubBody⟩
      rfl rfl).2.2.2.2.2.2.1,
   (C5_ttl_differentiation stubNet 0 "2024-01-15" ⟨true, 200, "OK", stubBody⟩
      rfl rfl).2.2.2.2.2.2.2⟩

/-- Lowercase-equal search strings induce the same match predicate. -/
theorem matchesAbbrev_congr (a b : String)
    (h : toLowerCase a = toLowerCase b) :
    matchesAbbrev a = matchesAbbrev b := by
  funext t
  unfold matchesAbbrev
  cases hx : (getField t "teamAbbrev").bind (fun a2 => getField a2 "default")
    with
  | none => rfl
  | some v => cases v <;> simp [h]

/-- C6: team lookup is case-insensitive — any two search strings with the
same lowercasing give the same `getTeamStats` result; when some standings
entry matches "BOS" case-insensitively, `"bos"` and `"BOS"` both return
that same entry; when no entry matches, the result is `null` (absent), not
an error. -/
theorem C6_case_insensitive_team_lookup
    (net : String → Except String FetchResponse) (c : MemoryCache)
    (now : Nat) (d : String) (s : JSVal) (c1 : MemoryCache) (n : Nat)
    (teams : List JSVal)
    (hstand : getStandings net c now d = (.ok s, c1, n))
    (hshape : getField s "standings" = some (.jsArr teams)) :
    (∀ a b : String, toLowerCase a = toLowerCase b →
      getTeamStats net c now d a = getTeamStats net c now d b) ∧
    ((∃ t ∈ teams, matchesAbbrev "BOS" t = true) →
      ∃ t, t ∈ teams ∧ matchesAbbrev "BOS" t = true ∧
        getTeamStats net c now d "bos" = (.ok t, c1) ∧
        getTeamStats net c now d "BOS" = (.ok t, c1)) ∧
    (∀ a : String, (∀ t ∈ teams, matchesAbbrev a t = false) →
      getTeamStats net c now d a = (.ok .jsNull, c1)) := by
  refine ⟨fun a b hab => ?_, fun hex => ?_, fun a hall => ?_⟩
  · have hm := matchesAbbrev_congr a b hab
    simp [getTeamStats, hstand, hshape, hm]
  · have hsome : (teams.find? (matchesAbbrev "BOS")).isSome :=
      List.find?_isSome.mpr hex
    obtain ⟨t, hfind⟩ := Option.isSome_iff_exists.mp hsome
    have hm := matchesAbbrev_congr "bos" "BOS" (by decide)
    refine ⟨t, List.mem_of_find?_eq_some hfind, List.find?_some hfind,
      ?_, ?_⟩
    · simp [getTeamStats, hstand, hshape, hm, hfind]
    · simp [getTeamStats, hstand, hshape, hfind]
  · have hnone : teams.find? (matchesAbbrev a) = none :=
      List.find?_eq_none.mpr (fun t ht => by simp [hall t ht])
    simp [getTeamStats, hstand, hshape, hnone]

/-- A standings entry with abbreviation "TOR". -/
def torTeam : JSVal :=
  .jsObj [("teamAbbrev", .jsObj [("default", .jsStr "TOR")]),
          ("wins", .jsNum 25)]

/-- A standings entry with abbreviation "BOS". -/
def bosTeam : JSVal :=
  .jsObj [("teamAbbrev", .jsObj [("default", .jsStr "BOS")]),
          ("wins", .jsNum 30)]

/-- A standings document holding the two teams above. -/
def standingsBody : JSVal :=
  .jsObj [("standings", .jsArr [torTeam, bosTeam])]

/-- A stub transport whose every request succeeds with `standingsBody`. -/
def stubNetStandings : String → Except String FetchResponse :=
  fun _ => .ok ⟨true, 200, "OK", standingsBody⟩

/-- C6 witness: "bos" and "BOS" both find the BOS entry of a concrete
standings document; "xyz" yields `null`. -/
theorem C6_case_insensitive_team_lookup_witness :
    (∃ t, t ∈ [torTeam, bosTeam] ∧ matchesAbbrev "BOS" t = true ∧
      getTeamStats stubNetStandings MemoryCache.new 0 "2024-01-15" "bos"
        = (.ok t, MemoryCache.new.set 0 ("standings:" ++ "2024-01-15")
            standingsBody CACHE_TTL.STANDINGS) ∧
      getTeamStats stubNetStandings MemoryCache.new 0 "2024-01-15" "BOS"
        = (.ok t, MemoryCache.new.set 0 ("standings:" ++ "2024-01-15")
            standingsBody CACHE_TTL.STANDINGS)) ∧
    getTeamStats stubNetStandings MemoryCache.new 0 "2024-01-15" "xyz"
      = (.ok .jsNull, MemoryCache.new.set 0 ("standings:" ++ "2024-01-15")
          standingsBody CACHE_TTL.STANDINGS) :=
  ⟨(C6_case_insensitive_team_lookup stubNetStandings MemoryCache.new 0
      "2024-01-15" standingsBody
      (MemoryCache.new.set 0 ("standings:" ++ "2024-01-15") standingsBody
        CACHE_TTL.STANDINGS) 1 [torTeam, bosTeam] rfl rfl).2.1
      ⟨bosTeam, by simp, by decide⟩,
   (C6_case_insensitive_team_lookup stubNetStandings MemoryCache.new 0
      "2024-01-15" standingsBody
      (MemoryCache.new.set 0 ("standings:" ++ "2024-01-15") standingsBody
        CACHE_TTL.STANDINGS) 1 [torTeam, bosTeam] rfl rfl).2.2 "xyz"
      (by intro t ht; simp at ht
          rcases ht with h | h <;> subst h <;> decide)⟩

/-- C10 counterexample: store the falsy value `0` under `"k"` with a live
TTL; `get("k")` returns `0`, which differs from the `null` returned for a
key that was never set — so a stored falsy value is NOT always
indistinguishable from absence at `get`. -/
theorem C10_counterexample :
    ((MemoryCache.new.set 0 "k" (JSVal.jsNum 0) 1000).get 0 "k").1
      = JSVal.jsNum 0 ∧
    (MemoryCache.new.get 0 "k").1 = JSVal.jsNull ∧
    JSVal.jsNum 0 ≠ JSVal.jsNull := by
  refine ⟨rfl, rfl, fun h => ?_⟩
  exact JSVal.noConfusion h

/-- C10 (amended): a stored `null` is indistinguishable from absence —
`get` yields `null` for it at every time; and for every falsy stored
value (null, 0, false, ""), the orchestrator's truthiness hit test
`if (cached) return cached;` treats the unexpired entry as a miss, so
`getSchedule` makes an upstream call on every request even within the
TTL.  (A non-null falsy value is, however, returned verbatim by `get`,
so it is distinguishable from absence at the store interface itself.) -/
theorem C10_falsy_treated_as_miss (c : MemoryCache) (now t d ex : Nat)
    (k date : String) (v : JSVal)
    (net : String → Except String FetchResponse) :
    ((c.set now k JSVal.jsNull t).get (now + d) k).1 = JSVal.jsNull ∧
    (truthy v = false →
      mapGet c.cache ("schedule:" ++ date) = some ⟨v, ex⟩ →
      now ≤ ex →
      (getSchedule net c now date).2.2 = 1) := by
  constructor
  · have hm : mapGet (c.set now k JSVal.jsNull t).cache k
        = some ⟨JSVal.jsNull, now + t⟩ :=
      mapGet_mapSet_self c.cache k ⟨JSVal.jsNull, now + t⟩
    by_cases h : now + d > now + t <;> simp [MemoryCache.get, hm, h]
  · intro hfalsy hmem hle
    have hget : c.get now ("schedule:" ++ date) = (v, c) := by
      simp [MemoryCache.get, hmem, Nat.not_lt.mpr hle]
    cases hf : fetchNHL net ("/schedule/" ++ date) <;>
      simp [getSchedule, hget, hfalsy, hf]

/-- C10 amended witness: a stored `null` read back at its set time, and a
concrete cache holding the unexpired falsy value `0` under
`"schedule:2024-01-15"` on which `getSchedule` still makes one upstream
call. -/
theorem C10_falsy_treated_as_miss_witness :
    ((MemoryCache.new.set 3 "k" JSVal.jsNull 9).get (3 + 0) "k").1
      = JSVal.jsNull ∧
    (getSchedule stubNet
        (MemoryCache.mk [("schedule:2024-01-15", ⟨JSVal.jsNum 0, 100⟩)] true)
        50 "2024-01-15").2.2 = 1 :=
  ⟨(C10_falsy_treated_as_miss MemoryCache.new 3 9 0 100 "k" "2024-01-15"
      (JSVal.jsNum 0) stubNet).1,
   (C10_falsy_treated_as_miss
      (MemoryCache.mk [("schedule:2024-01-15", ⟨JSVal.jsNum 0, 100⟩)] true)
      50 9 0 100 "k" "2024-01-15" (JSVal.jsNum 0) stubNet).2 rfl
      (by simp [mapGet]) (by decide)⟩
